import Mathlib

/-!
Verification of the RFQ-sender vendor-matching and batch-composition engine
(scripts/email_from_list.py).

The Python functions are shallowly embedded as executable Lean definitions:

* CSV queue rows become the QueueLine structure; a pandas NaN cell is
  modelled as Option.none.
* The vendor_info dictionary built by load_data becomes an association list
  Catalog (Python dicts preserve insertion order, as does the list).
* The heterogeneous YAML process entries (plain string vs dict) become the
  ProcessEntry inductive; a missing or None specs key is Option.none.
* Python exceptions that can escape process_queue are modelled with
  Except PyErr; an AttributeError from calling .lower() on a NaN spec and
  an IndexError from .iloc[0] on an empty frame are the two possibilities.
* The filesystem (os.path.exists / isdir / isfile / os.walk) is an abstract
  FS record of boolean oracles; os.walk is a list of (file name, full path)
  pairs in walk order.
* The Outlook mail sink (create_draft_email) is a boolean oracle on the
  call it receives: it returns False both on a hard COM failure and on a
  save with missing attachments, which is exactly the information
  process_queue observes.  The audit sink (log_email) is an appended list
  of records; its wall-clock timestamp is omitted.
* datetime.now, jinja2 rendering and the sample-table header file are
  impure inputs of create_email_body; they are threaded explicitly through
  the ComposeEnv record (today_plus_7 is the pre-rendered due date string,
  render the template engine, sampleHeader the first CSV row of the sample
  table file).
-/

/-!
String utilities.  The Lean core versions of toLower, trim, replace and
startsWith are implemented through well-founded recursion or byte-level
primitives that the kernel cannot reduce, so kernel-executable list-based
versions are defined here.  They agree with the Python string methods the
source uses on the ASCII data the program handles (Python str.lower and
str.strip additionally handle non-ASCII input, which none of the claims
involve).
-/

/-- Python str.lower (ASCII range, as Char.toLower). -/
def lowerStr (s : String) : String :=
  String.mk (s.data.map Char.toLower)

/-- Whether the first list starts the second. -/
def isPrefixList : List Char → List Char → Bool
  | [], _ => true
  | _ :: _, [] => false
  | a :: as, b :: bs => a == b && isPrefixList as bs

/-- Python substring containment: needle in hay. -/
def containsSub (hay needle : String) : Bool :=
  go needle.data hay.data
where
  go (n : List Char) : List Char → Bool
    | [] => n.isEmpty
    | c :: rest => isPrefixList n (c :: rest) || go n rest

/-- Python str.strip (ASCII whitespace). -/
def trimStr (s : String) : String :=
  String.mk (((s.data.dropWhile Char.isWhitespace).reverse.dropWhile
    Char.isWhitespace).reverse)

/-- Python str.startswith. -/
def startsWithStr (s p : String) : Bool :=
  isPrefixList p.data s.data

/-- Python str.replace for a one-character pattern; every replace call in
the embedded code replaces a single character. -/
def replaceAll (s : String) (old : Char) (new : String) : String :=
  String.mk (go s.data)
where
  go : List Char → List Char
    | [] => []
    | c :: rest => if c == old then new.data ++ go rest else c :: go rest

/-- Python sep.join(xs). -/
def joinWith (sep : String) : List String → String
  | [] => ""
  | [x] => x
  | x :: y :: rest => x ++ sep ++ joinWith sep (y :: rest)

/-- One row of Queue.csv after the column renaming in load_data.
NaN-able columns are Options. -/
structure QueueLine where
  quote_id : String
  line : String
  part_number : String
  callout : Option String
  process : String
  spec : Option String
  qty : String
  file_path : Option String
deriving Repr, DecidableEq

/-- One element of the processes list of a vendor in vendor_options.yaml.
A YAML entry is either a plain string or a mapping; a mapping may or may
not carry a name key, and its specs key may be absent or None (both are
modelled as none) or a list whose elements are mappings with a number key
(some number) or anything else (none). -/
inductive ProcessEntry where
  | str (s : String)
  | dict (name : Option String) (specs : Option (List (Option String)))
deriving Repr, DecidableEq

/-- The per-vendor record held in the vendor_info dictionary built by
load_data: email, vendor_name, first_name, and the enrichment key
processes, absent (none) when the vendor does not appear in the YAML
capability tree. -/
structure VendorInfo where
  email : String
  vendor_name : String
  first_name : String
  processes : Option (List ProcessEntry)
deriving Repr, DecidableEq

/-- The vendor_info dictionary: vendor_id keys in insertion order. -/
abbrev Catalog := List (String × VendorInfo)

/-- Python exceptions that can escape the matching/composition code. -/
inductive PyErr where
  /-- AttributeError: float object has no attribute lower (spec is NaN). -/
  | attributeError
  /-- IndexError from .iloc[0] on an empty frame. -/
  | indexError
deriving Repr, DecidableEq

/-- Scan of the specs list of one process entry, mirroring
for vendor_spec in vendor_process[specs] at email_from_list.py:765-769:
entries that are dicts with a number key are compared case-insensitively
against the queue spec; the first hit appends the vendor and breaks this
inner loop.  When the queue spec is NaN (none), evaluating spec.lower()
on the first numbered entry raises AttributeError. -/
def scanSpecs (specQ : Option String) : List (Option String) → Except PyErr Bool
  | [] => .ok false
  | none :: rest => scanSpecs specQ rest
  | some n :: rest =>
    match specQ with
    | none => .error .attributeError
    | some s => if lowerStr s == lowerStr n then .ok true else scanSpecs specQ rest

/-- Number of times the id of one vendor is appended during the spec search,
mirroring for vendor_process in info[processes] at
email_from_list.py:763-769.  The break after an append only exits the
inner specs loop, so the vendor is appended once per process entry whose
specs list matches. -/
def vendorSpecAppends (specQ : Option String) : List ProcessEntry → Except PyErr Nat
  | [] => .ok 0
  | .str _ :: rest => vendorSpecAppends specQ rest
  | .dict _ none :: rest => vendorSpecAppends specQ rest
  | .dict _ (some l) :: rest =>
    match scanSpecs specQ l with
    | .error e => .error e
    | .ok b =>
      match vendorSpecAppends specQ rest with
      | .error e => .error e
      | .ok n => .ok ((if b then 1 else 0) + n)

/-- Spec-based vendor search, mirroring email_from_list.py:759-769:
iterate the vendor_info dictionary; vendors without a processes key are
skipped; each remaining vendor contributes one copy of its id per
matching process entry. -/
def findVendorsBySpec (specQ : Option String) : Catalog → Except PyErr (List String)
  | [] => .ok []
  | (vid, info) :: rest =>
    match info.processes with
    | none => findVendorsBySpec specQ rest
    | some entries =>
      match vendorSpecAppends specQ entries with
      | .error e => .error e
      | .ok n =>
        match findVendorsBySpec specQ rest with
        | .error e => .error e
        | .ok tail => .ok (List.replicate n vid ++ tail)

/-- Whether one process entry matches the queue process by name,
mirroring the if/elif at email_from_list.py:785-791: a plain string is
compared case-insensitively, a dict is compared through its name key when
present. -/
def entryNameMatches (process : String) : ProcessEntry → Bool
  | .str s => lowerStr process == lowerStr s
  | .dict (some n) _ => lowerStr process == lowerStr n
  | .dict none _ => false

/-- Whether a vendor matches the queue process by name: vendors without a
processes key are skipped; otherwise the loop at email_from_list.py:784
breaks on the first matching entry, so the vendor matches iff some entry
matches. -/
def procMatches (process : String) (info : VendorInfo) : Bool :=
  match info.processes with
  | none => false
  | some entries => entries.any (entryNameMatches process)

/-- Process-name-based vendor search, mirroring email_from_list.py:781-791.
The break after an append exits the whole per-vendor loop, so each vendor
is appended at most once here. -/
def findVendorsByProcess (process : String) : Catalog → List String
  | [] => []
  | (vid, info) :: rest =>
    if procMatches process info then vid :: findVendorsByProcess process rest
    else findVendorsByProcess process rest

/-- has_spec at email_from_list.py:745: the spec column exists (always, in
this embedding) and is not all-NaN over the group. -/
def hasSpec (ls : List QueueLine) : Bool :=
  ls.any (fun l => l.spec.isSome)

/-- The suitable_vendors list computed for one (quote, process) group at
email_from_list.py:744-791: when has_spec, the spec used is the FIRST
spec cell of the first line (iloc[0], which may be NaN even when has_spec holds) and
the spec search runs; when the spec search appended nothing (or has_spec
is false), the process-name search runs. -/
def suitableVendors (ls : List QueueLine) (process : String) (c : Catalog) :
    Except PyErr (List String) :=
  let bySpec : Except PyErr (List String) :=
    if hasSpec ls then
      match ls with
      | [] => .ok []
      | l0 :: _ => findVendorsBySpec l0.spec c
    else .ok []
  match bySpec with
  | .error e => .error e
  | .ok l => if l.isEmpty then .ok (findVendorsByProcess process c) else .ok l

/-- Whether a specs list contains a numbered entry equal to the queue
spec, compared case-insensitively. -/
def specsAny (s : String) (l : List (Option String)) : Bool :=
  l.any (fun e =>
    match e with
    | some n => lowerStr s == lowerStr n
    | none => false)

/-- Whether one process entry declares the queue spec. -/
def entrySpecMatches (s : String) : ProcessEntry → Bool
  | .dict _ (some l) => specsAny s l
  | _ => false

/-- Number of process entries of one vendor that declare the queue
spec: the number of copies of the vendor id the spec search appends. -/
def countMatches (s : String) : List ProcessEntry → Nat
  | [] => 0
  | pe :: rest => (if entrySpecMatches s pe then 1 else 0) + countMatches s rest

/-- Pure value of findVendorsBySpec (some s). -/
def specList (s : String) : Catalog → List String
  | [] => []
  | (vid, info) :: rest =>
    match info.processes with
    | none => specList s rest
    | some entries => List.replicate (countMatches s entries) vid ++ specList s rest

/-- A vendor declares a spec when some process entry of its capability
list carries a specs mapping whose number equals it case-insensitively. -/
def declaresSpec (s : String) (info : VendorInfo) : Bool :=
  match info.processes with
  | none => false
  | some entries => entries.any (entrySpecMatches s)

/-- Number of process entries of a vendor that declare the spec (zero for
a vendor without a processes key). -/
def declCount (s : String) (info : VendorInfo) : Nat :=
  match info.processes with
  | none => 0
  | some entries => countMatches s entries

/-- pandas Series.unique / dict-iteration order: first occurrence of each
value, in order of appearance.  Structured with a seen accumulator so the
recursion is structural. -/
def firstUniquesAux [DecidableEq α] : List α → List α → List α
  | [], _ => []
  | a :: rest, seen =>
    if a ∈ seen then firstUniquesAux rest seen
    else a :: firstUniquesAux rest (a :: seen)

/-- pandas Series.unique: distinct values in order of first appearance. -/
def firstUniques [DecidableEq α] (l : List α) : List α :=
  firstUniquesAux l []

/-- Index of the last element satisfying p, if any. -/
def lastIdxP (p : Char → Bool) : List Char → Option Nat
  | [] => none
  | c :: rest =>
    match lastIdxP p rest with
    | some i => some (i + 1)
    | none => if p c then some 0 else none

/-- os.path.splitext on Windows (ntpath): split at the last dot, provided
it comes after the last path separator and the basename has a non-dot
character before it (leading dots of the basename never start an
extension). -/
def splitExt (s : String) : String × String :=
  let cs := s.data
  match lastIdxP (fun c => c == '.') cs with
  | none => (s, "")
  | some d =>
    let base : Nat :=
      match lastIdxP (fun c => c == '\\' || c == '/') cs with
      | none => 0
      | some k => k + 1
    if base ≤ d then
      if ((cs.drop base).take (d - base)).any (fun c => !(c == '.')) then
        (String.mk (cs.take d), String.mk (cs.drop d))
      else (s, "")
    else (s, "")

/-- The filesystem as the attachment-resolution code observes it.
walk d lists, for every file reached by os.walk(d) in walk order, the
bare file name paired with the os.path.join(root, file) full path. -/
structure FS where
  pathExists : String → Bool
  isDir : String → Bool
  isFile : String → Bool
  walk : String → List (String × String)

/-- The extension exclusion list at email_from_list.py:841. -/
def ignore_extensions : List String :=
  [".xlsx", ".xls", ".docx", ".doc"]

/-- Attachment contribution of one queue line, mirroring
email_from_list.py:827-887: a NaN file_path contributes nothing; the path
and part number are stripped; a missing path is a logged warning and
contributes nothing; a directory is walked recursively, keeping files
whose name contains the part number and whose extension, lowercased, is
not excluded; a plain file is contributed as is; a path that exists but
is neither directory nor file contributes nothing. -/
def resolveLine (fs : FS) (l : QueueLine) : List String :=
  match l.file_path with
  | none => []
  | some fp0 =>
    let file_path := trimStr fp0
    let part_number := trimStr l.part_number
    if fs.pathExists file_path then
      if fs.isDir file_path then
        ((fs.walk file_path).filter (fun e =>
          containsSub e.1 part_number && fs.isFile e.2 &&
            !(ignore_extensions.contains (lowerStr (splitExt e.2).2)))).map
          (fun e => e.2)
      else if fs.isFile file_path then [file_path]
      else []
    else []

/-- The attachments list accumulated over the lines of one
(quote, process) group at email_from_list.py:826-887: per-line results
concatenated in order, with no deduplication. -/
def resolveAttachments (fs : FS) : List QueueLine → List String
  | [] => []
  | l :: rest => resolveLine fs l ++ resolveAttachments fs rest

/-- The context dictionary handed to the jinja2 template at
email_from_list.py:445-461. -/
structure TemplateContext where
  vendor_name : String
  first_name : String
  greeting_name : String
  part_no : String
  process : String
  spec : Option String
  quantities : List String
  attachments : List String
  due_date : String
  sender_name : String
  sender_email : String
  company_name : String
  sample_table : Option String
deriving Repr, DecidableEq

/-- The impure collaborators of create_email_body, made explicit: the
filesystem, the jinja2 engine (a function of template path and context),
the first CSV row of the sample-table template file, and the already
formatted due date string computed from datetime.now() + 7 days. -/
structure ComposeEnv where
  fs : FS
  render : String → TemplateContext → String
  sampleHeader : String → List String
  today_plus_7 : String

/-- One populated HTML data cell of the sample table. -/
def tdCell (v : String) : String :=
  "<td style=\"border: 1px solid #ddd; padding: 8px;\">" ++ v ++ "</td>"

/-- One empty HTML data cell of the sample table. -/
def emptyTd : String :=
  "<td style=\"border: 1px solid #ddd; padding: 8px;\"></td>"

/-- create_sample_table at email_from_list.py:273-378: filter the items
by process (a None process matches nothing), take the header row from the
template file, and render either an HTML table or CSV lines, with one row
per item and five trailing blank pricing columns. -/
def create_sample_table (env : ComposeEnv) (items : List QueueLine)
    (process : Option String) (template_path : String) (html_format : Bool) :
    String :=
  let process_items : List QueueLine :=
    match process with
    | some p => items.filter (fun l => l.process == p)
    | none => []
  let header := env.sampleHeader template_path
  if html_format then
    "<table style=\"border-collapse: collapse; width: 100%;\">"
      ++ "<tr style=\"background-color: #f2f2f2; font-weight: bold;\">"
      ++ String.join (header.map (fun col =>
          "<th style=\"border: 1px solid #ddd; padding: 8px; text-align: left;\">"
            ++ col ++ "</th>"))
      ++ "</tr>"
      ++ String.join (process_items.map (fun r =>
          "<tr>" ++ tdCell r.part_number ++ tdCell (r.callout.getD "")
            ++ tdCell r.process ++ tdCell (r.spec.getD "") ++ tdCell r.qty
            ++ emptyTd ++ emptyTd ++ emptyTd ++ emptyTd ++ emptyTd ++ "</tr>"))
      ++ "</table>"
  else
    joinWith "\n" (joinWith "," header ::
      process_items.map (fun r =>
        joinWith "," [r.part_number, r.callout.getD "", r.process,
          r.spec.getD "", r.qty, "", "", "", "", ""]))

/-- The HTML escaping applied to callout text at email_from_list.py:492. -/
def htmlEscape (s : String) : String :=
  replaceAll (replaceAll (replaceAll (replaceAll s '&' "&amp;") '<' "&lt;")
    '>' "&gt;") '"' "&quot;"

/-- create_email_body at email_from_list.py:381-552.  Returns none when
items is empty (the .iloc[0] on line 419 would raise IndexError there);
otherwise some (subject, body).  Python truthiness of the optional string
arguments (None and the empty string are both falsy) is spelled out at
each use. -/
def create_email_body (env : ComposeEnv) (vendor_info : VendorInfo)
    (items : List QueueLine) (process : Option String) (use_template : Bool)
    (template_path : Option String) (sample_table_path : Option String)
    (signature : Option String) (html_format : Bool)
    (actual_attachments : Option (List String)) : Option (String × String) :=
  match items with
  | [] => none
  | item0 :: _ =>
    let quote_id := item0.quote_id
    let vendor_name := vendor_info.vendor_name
    let first_name := vendor_info.first_name
    let greeting_name := if first_name == "" then vendor_name else first_name
    let filtered_items :=
      match process with
      | some p => if p == "" then items else items.filter (fun l => l.process == p)
      | none => items
    let subject :=
      match process with
      | some p =>
        if p == "" then "RFQ for Quote " ++ quote_id
        else "RFQ for Quote " ++ quote_id ++ " - " ++ p
      | none => "RFQ for Quote " ++ quote_id
    let tplOpt : Option String :=
      if use_template then
        match template_path with
        | some t =>
          if t == "" then none else if env.fs.pathExists t then some t else none
        | none => none
      else none
    let sampleOpt : Option String :=
      match sample_table_path with
      | some sp =>
        if sp == "" then none else if env.fs.pathExists sp then some sp else none
      | none => none
    match tplOpt with
    | some tp =>
      let sample_table : Option String :=
        match sampleOpt with
        | some sp => some (create_sample_table env filtered_items process sp html_format)
        | none => none
      let context : TemplateContext := {
        vendor_name := vendor_name
        first_name := first_name
        greeting_name := greeting_name
        part_no := joinWith ", " (firstUniques (filtered_items.map (fun l => l.part_number)))
        process :=
          match process with
          | some p =>
            if p == "" then joinWith ", " (firstUniques (filtered_items.map (fun l => l.process)))
            else p
          | none => joinWith ", " (firstUniques (filtered_items.map (fun l => l.process)))
        spec :=
          if filtered_items.any (fun l => l.spec.isSome) then
            match filtered_items with
            | [] => none
            | l :: _ => l.spec
          else none
        quantities := firstUniques (filtered_items.map (fun l => l.qty))
        attachments :=
          match actual_attachments with
          | some a => a
          | none => firstUniques (filtered_items.filterMap (fun l => l.file_path))
        due_date := env.today_plus_7
        sender_name := "Your Name"
        sender_email := "your.email@example.com"
        company_name := "Your Company"
        sample_table := sample_table }
      let body0 := env.render tp context
      let body :=
        match signature with
        | some sg =>
          if !(sg == "") && html_format && startsWithStr (trimStr sg) "<" then body0 ++ sg
          else body0
        | none => body0
      some (subject, body)
    | none =>
      if html_format then
        let partHtml := fun (r : QueueLine) =>
          "<li><strong>Part:</strong> " ++ r.part_number ++ ", <strong>Qty:</strong> "
            ++ r.qty ++ ", <strong>Process:</strong> " ++ r.process
            ++ (match r.spec with
                | some sp => ", <strong>Spec:</strong> " ++ sp
                | none => "")
            ++ "</li>"
            ++ (match r.callout with
                | some co =>
                  "<blockquote style=\"margin-left: 20px; padding-left: 10px; border-left: 3px solid #ccc;\">"
                    ++ htmlEscape (trimStr co) ++ "</blockquote>"
                | none => "")
        let sampleBlock :=
          match sampleOpt with
          | some sp =>
            "<p>Please fill out the following table and return it to us:</p>"
              ++ create_sample_table env filtered_items process sp true
          | none => ""
        let sigBlock :=
          match signature with
          | some sg =>
            if sg == "" then "<p>Thanks,<br>Your Name</p>"
            else "<p>" ++ replaceAll sg '\n' "<br>" ++ "</p>"
          | none => "<p>Thanks,<br>Your Name</p>"
        let body :=
          "<p>Hello " ++ greeting_name ++ ",</p>"
            ++ "<p>Please find attached our RFQ for the following parts:</p>"
            ++ "<ul>" ++ String.join (filtered_items.map partHtml) ++ "</ul>"
            ++ sampleBlock ++ sigBlock
        some (subject, body)
      else
        let partLine := fun (r : QueueLine) =>
          "- Part: " ++ r.part_number ++ ", Qty: " ++ r.qty ++ ", Process: " ++ r.process
            ++ (match r.spec with
                | some sp => ", Spec: " ++ sp
                | none => "")
            ++ (match r.callout with
                | some co => "\n  Callout: \"" ++ replaceAll (trimStr co) '"' "\\\"" ++ "\""
                | none => "")
        let body0 :=
          "Hello " ++ greeting_name
            ++ ",\n\nPlease find attached our RFQ for the following parts:\n"
            ++ joinWith "\n" (filtered_items.map partLine)
        let body1 :=
          match sampleOpt with
          | some sp =>
            body0 ++ "\n\nPlease fill out the following table and return it to us:\n\n"
              ++ create_sample_table env filtered_items process sp false
          | none => body0
        let body :=
          match signature with
          | some sg =>
            if sg == "" then body1 ++ "\n\nThanks,\nYour Name"
            else body1 ++ "\n\n" ++ sg
          | none => body1 ++ "\n\nThanks,\nYour Name"
        some (subject, body)

/-- The fixed path/signature arguments of one process_queue run. -/
structure Config where
  template_path : Option String
  sample_table_path : Option String
  signature : Option String

/-- One call handed to the mail sink (create_draft_email): recipient,
subject, body and attachment paths.  html_format is always True and
use_outlook_signature always False at the call site, so they carry no
information. -/
structure SinkCall where
  recipient : String
  subject : String
  body : String
  attachments : List String
deriving Repr, DecidableEq

/-- One record appended through log_email (timestamp omitted). -/
structure AuditRecord where
  quote_id : String
  vendor_id : String
  status : String
deriving Repr, DecidableEq

/-- The observable outcome of a completed process_queue run: the sink
calls made, the audit records appended, and the returned counters. -/
structure RunResult where
  drafts : List SinkCall
  audits : List AuditRecord
  successful_drafts : Nat
  total_quotes : Nat
deriving Repr, DecidableEq

/-- Python dict .get on the vendor_info dictionary. -/
def lookupVendor (vid : String) : Catalog → Option VendorInfo
  | [] => none
  | (k, v) :: rest => if k == vid then some v else lookupVendor vid rest

/-- use_template at email_from_list.py:720: template_path is not None and
os.path.exists(template_path). -/
def use_templateOf (env : ComposeEnv) (cfg : Config) : Bool :=
  match cfg.template_path with
  | some t => env.fs.pathExists t
  | none => false

/-- The body of the per-vendor loop at email_from_list.py:807-932: look
the vendor up (a miss is audited as skipped_no_contact), resolve the
attachments over the group lines, compose, call the sink, and audit
draft_saved on success or draft_saved_with_issues otherwise (the sink
returns False both on a save that lacked some attachments and on a
caught hard failure).  Yields (sink calls, audit records, successes). -/
def processVendor (env : ComposeEnv) (sink : SinkCall → Bool)
    (vendor_info : Catalog) (cfg : Config) (quote_id process : String)
    (process_items : List QueueLine) (vendor_id : String) :
    Except PyErr (List SinkCall × List AuditRecord × Nat) :=
  match lookupVendor vendor_id vendor_info with
  | none => .ok ([], [⟨quote_id, vendor_id, "skipped_no_contact_" ++ process⟩], 0)
  | some info =>
    let attachments := resolveAttachments env.fs process_items
    match create_email_body env info process_items (some process)
        (use_templateOf env cfg) cfg.template_path cfg.sample_table_path
        cfg.signature true (some attachments) with
    | none => .error .indexError
    | some (subject, body) =>
      let call : SinkCall := ⟨info.email, subject, body, attachments⟩
      if sink call then
        .ok ([call], [⟨quote_id, vendor_id, "draft_saved_" ++ process⟩], 1)
      else
        .ok ([call], [⟨quote_id, vendor_id, "draft_saved_with_issues_" ++ process⟩], 0)

/-- The fan-out over suitable_vendors at email_from_list.py:807. -/
def processVendorList (env : ComposeEnv) (sink : SinkCall → Bool)
    (vendor_info : Catalog) (cfg : Config) (quote_id process : String)
    (process_items : List QueueLine) :
    List String → Except PyErr (List SinkCall × List AuditRecord × Nat)
  | [] => .ok ([], [], 0)
  | vid :: rest =>
    match processVendor env sink vendor_info cfg quote_id process process_items vid with
    | .error e => .error e
    | .ok (d1, a1, s1) =>
      match processVendorList env sink vendor_info cfg quote_id process process_items rest with
      | .error e => .error e
      | .ok (d2, a2, s2) => .ok (d1 ++ d2, a1 ++ a2, s1 + s2)

/-- The body of the per-process loop at email_from_list.py:740-932 (minus
the total_quotes increment): filter the group, match vendors, audit
skipped_no_vendor with vendor id NONE when nothing matched, otherwise fan
out over the suitable vendors. -/
def processPair (env : ComposeEnv) (sink : SinkCall → Bool)
    (vendor_info : Catalog) (cfg : Config) (quote_id process : String)
    (items : List QueueLine) :
    Except PyErr (List SinkCall × List AuditRecord × Nat) :=
  let process_items := items.filter (fun l => l.process == process)
  match suitableVendors process_items process vendor_info with
  | .error e => .error e
  | .ok suitable =>
    if suitable.isEmpty then
      .ok ([], [⟨quote_id, "NONE", "skipped_no_vendor_" ++ process⟩], 0)
    else
      processVendorList env sink vendor_info cfg quote_id process process_items suitable

/-- The per-quote loop over processes_needed, counting total_quotes once
per (quote, process) iteration. -/
def processPairs (env : ComposeEnv) (sink : SinkCall → Bool)
    (vendor_info : Catalog) (cfg : Config) (quote_id : String)
    (items : List QueueLine) :
    List String → Except PyErr (List SinkCall × List AuditRecord × Nat × Nat)
  | [] => .ok ([], [], 0, 0)
  | p :: rest =>
    match processPair env sink vendor_info cfg quote_id p items with
    | .error e => .error e
    | .ok (d1, a1, s1) =>
      match processPairs env sink vendor_info cfg quote_id items rest with
      | .error e => .error e
      | .ok (d2, a2, s2, t2) => .ok (d1 ++ d2, a1 ++ a2, s1 + s2, 1 + t2)

/-- The outer loop over unique_quotes at email_from_list.py:725: an empty
vendor_info dictionary skips the whole quote before any process is
counted. -/
def processQuotes (env : ComposeEnv) (sink : SinkCall → Bool)
    (queue : List QueueLine) (vendor_info : Catalog) (cfg : Config) :
    List String → Except PyErr (List SinkCall × List AuditRecord × Nat × Nat)
  | [] => .ok ([], [], 0, 0)
  | q :: restQ =>
    let items := queue.filter (fun l => l.quote_id == q)
    let step :=
      if vendor_info.isEmpty then
        Except.ok ([], [], 0, 0)
      else
        processPairs env sink vendor_info cfg q items
          (firstUniques (items.map (fun l => l.process)))
    match step with
    | .error e => .error e
    | .ok (d1, a1, s1, t1) =>
      match processQuotes env sink queue vendor_info cfg restQ with
      | .error e => .error e
      | .ok (d2, a2, s2, t2) => .ok (d1 ++ d2, a1 ++ a2, s1 + s2, t1 + t2)

/-- process_queue at email_from_list.py:680-934, as a function of the
queue frame, the vendor_info dictionary, the impure collaborators, and
the configured paths.  The returned pair (successful_drafts,
total_quotes) is carried in RunResult together with the emitted sink
calls and audit records. -/
def process_queue (env : ComposeEnv) (sink : SinkCall → Bool) (cfg : Config)
    (queue : List QueueLine) (vendor_info : Catalog) : Except PyErr RunResult :=
  match processQuotes env sink queue vendor_info cfg
      (firstUniques (queue.map (fun l => l.quote_id))) with
  | .error e => .error e
  | .ok (d, a, s, t) => .ok ⟨d, a, s, t⟩


/-- A filesystem with no entries. -/
def noFS : FS :=
  ⟨fun _ => false, fun _ => false, fun _ => false, fun _ => []⟩

/-- A concrete environment for evaluating concrete runs: empty
filesystem, a render function returning the empty string, an empty
sample-table header and a fixed due date. -/
def trivEnv : ComposeEnv :=
  ⟨noFS, fun _ _ => "", fun _ => [], "January 01, 2026"⟩

/-- A run configuration with no template, sample table or signature. -/
def trivCfg : Config :=
  ⟨none, none, none⟩

/-- A mail sink that always reports success. -/
def trivSink : SinkCall → Bool :=
  fun _ => true

/-- A vendor declaring spec MIL-A-8625 under its Anodize process. -/
def v1info : VendorInfo :=
  ⟨"v1@x.com", "V1", "", some [.dict (some "Anodize") (some [some "MIL-A-8625"])]⟩

/-- A vendor listing Anodize as a plain-string capability, no specs. -/
def v2info : VendorInfo :=
  ⟨"v2@x.com", "V2", "", some [.str "Anodize"]⟩

/-- A two-vendor catalog. -/
def wCat : Catalog :=
  [("V1", v1info), ("V2", v2info)]

/-- A queue line asking for Anodize to spec mil-a-8625 (lower case, to
exercise the case-insensitive comparison). -/
def wLine : QueueLine :=
  ⟨"Q1", "1", "PN1", none, "Anodize", some "mil-a-8625", "5", none⟩

/-- A queue line asking for Anodize to a spec no vendor declares. -/
def wLineZ : QueueLine :=
  ⟨"Q1", "1", "PN1", none, "Anodize", some "ZZZ", "5", none⟩

/-- A vendor declaring the same spec S1 under two process entries. -/
def c9info : VendorInfo :=
  ⟨"v@x.com", "V", "",
    some [.dict (some "Anodize") (some [some "S1"]),
      .dict (some "Chem Film") (some [some "S1"])]⟩

/-- A catalog holding only the double-declaring vendor. -/
def c9catalog : Catalog :=
  [("V", c9info)]

/-- A queue line asking for Anodize to spec S1. -/
def c9line : QueueLine :=
  ⟨"Q1", "1", "PN1", none, "Anodize", some "S1", "5", none⟩

/-- A queue line of group (Q1, Anodize) with a NaN spec cell. -/
def c10lineA : QueueLine :=
  ⟨"Q1", "1", "PN1", none, "Anodize", none, "5", none⟩

/-- A later line of the same group carrying the actual spec. -/
def c10lineB : QueueLine :=
  ⟨"Q1", "2", "PN2", none, "Anodize", some "MIL-A-8625", "5", none⟩

/-- A catalog whose only vendor has numbered spec entries. -/
def c10catalog : Catalog :=
  [("V1", v1info)]

/-- A queue line asking for a process nobody offers. -/
def c3line : QueueLine :=
  ⟨"Q2", "1", "PN9", none, "Plating", none, "5", none⟩

/-- A catalog holding only the plain-string Anodize vendor. -/
def c3catalog : Catalog :=
  [("V2", v2info)]

/-- A mail sink that always reports failure. -/
def falseSink : SinkCall → Bool :=
  fun _ => false

/-- The subject composed for quote Q1, process Anodize. -/
def c8subj : String :=
  "RFQ for Quote Q1 - Anodize"

/-- The structural-fallback HTML body composed for vendor V2 from the
single line wLineZ. -/
def c8body : String :=
  "<p>Hello V2,</p><p>Please find attached our RFQ for the following parts:</p><ul><li><strong>Part:</strong> PN1, <strong>Qty:</strong> 5, <strong>Process:</strong> Anodize, <strong>Spec:</strong> ZZZ</li></ul><p>Thanks,<br>Your Name</p>"

/-- A filesystem holding the single regular file F. -/
def c6fs : FS :=
  ⟨fun pth => pth == "F", fun _ => false, fun pth => pth == "F", fun _ => []⟩

/-- An environment over c6fs. -/
def c6env : ComposeEnv :=
  ⟨c6fs, fun _ _ => "", fun _ => [], "January 01, 2026"⟩

/-- A queue line whose file_location is the regular file F. -/
def c6line : QueueLine :=
  ⟨"Q1", "1", "PN1", none, "Anodize", none, "5", some "F"⟩

/-- A filesystem where D is a regular file. -/
def c5file_fs : FS :=
  ⟨fun pth => pth == "D", fun _ => false, fun pth => pth == "D", fun _ => []⟩

/-- A filesystem where D is a directory holding a matching pdf, a
matching but excluded xlsx, and a non-matching pdf. -/
def c5dir_fs : FS :=
  ⟨fun pth => pth == "D",
   fun pth => pth == "D",
   fun pth => pth == "D\\PN123_drawing.pdf" || pth == "D\\PN123_quote.xlsx"
     || pth == "D\\other.pdf",
   fun pth =>
     if pth == "D" then
       [("PN123_drawing.pdf", "D\\PN123_drawing.pdf"),
        ("PN123_quote.xlsx", "D\\PN123_quote.xlsx"),
        ("other.pdf", "D\\other.pdf")]
     else []⟩

/-- A queue line whose file_location is D and part number PN123. -/
def c5line : QueueLine :=
  ⟨"Q1", "1", "PN123", none, "Anodize", none, "5", some "D"⟩

theorem specsAny_cons_none (s : String) (rest : List (Option String)) :
    specsAny s (none :: rest) = specsAny s rest := by
  simp [specsAny]

theorem scanSpecs_some (s : String) :
    (l : List (Option String)) → scanSpecs (some s) l = .ok (specsAny s l)
  | [] => rfl
  | none :: rest => by
    rw [scanSpecs, scanSpecs_some s rest, specsAny_cons_none]
  | some n :: rest => by
    by_cases h : lowerStr s == lowerStr n
    · simp [scanSpecs, specsAny, h]
    · simp only [scanSpecs, h, if_false, Bool.false_eq_true, scanSpecs_some s rest,
        specsAny, List.any_cons]
      simp [h]

theorem vendorSpecAppends_some (s : String) :
    (es : List ProcessEntry) → vendorSpecAppends (some s) es = .ok (countMatches s es)
  | [] => rfl
  | .str t :: rest => by
    simp [vendorSpecAppends, countMatches, entrySpecMatches, vendorSpecAppends_some s rest]
  | .dict nm none :: rest => by
    simp [vendorSpecAppends, countMatches, entrySpecMatches, vendorSpecAppends_some s rest]
  | .dict nm (some l) :: rest => by
    rw [vendorSpecAppends, scanSpecs_some s l, vendorSpecAppends_some s rest]
    simp [countMatches, entrySpecMatches]

theorem findVendorsBySpec_some (s : String) :
    (c : Catalog) → findVendorsBySpec (some s) c = .ok (specList s c)
  | [] => rfl
  | (vid, info) :: rest => by
    rcases hp : info.processes with _ | entries
    · simp only [findVendorsBySpec, hp, findVendorsBySpec_some s rest, specList]
    · simp only [findVendorsBySpec, hp, vendorSpecAppends_some s entries,
        findVendorsBySpec_some s rest, specList]

theorem countMatches_ne_zero (s : String) :
    (es : List ProcessEntry) →
      (countMatches s es ≠ 0 ↔ es.any (entrySpecMatches s) = true)
  | [] => by simp [countMatches]
  | pe :: rest => by
    by_cases h : entrySpecMatches s pe
    · simp [countMatches, h]
    · simp [countMatches, h, countMatches_ne_zero s rest]

theorem declaresSpec_iff_declCount (s : String) (info : VendorInfo) :
    declaresSpec s info = true ↔ declCount s info ≠ 0 := by
  rcases hp : info.processes with _ | entries
  · simp [declaresSpec, declCount, hp]
  · simp [declaresSpec, declCount, hp, countMatches_ne_zero]

theorem mem_specList (s v : String) :
    (c : Catalog) →
      (v ∈ specList s c ↔ ∃ info, (v, info) ∈ c ∧ declCount s info ≠ 0)
  | [] => by simp [specList]
  | (vid, info) :: rest => by
    rcases hp : info.processes with _ | entries
    · rw [specList, hp]
      rw [mem_specList s v rest]
      constructor
      · rintro ⟨i2, hmem, hd⟩
        exact ⟨i2, List.mem_cons_of_mem _ hmem, hd⟩
      · rintro ⟨i2, hmem, hd⟩
        rcases List.mem_cons.mp hmem with heq | hmem2
        · rw [Prod.mk.injEq] at heq
          rw [heq.2] at hd
          simp [declCount, hp] at hd
        · exact ⟨i2, hmem2, hd⟩
    · rw [specList, hp]
      constructor
      · intro hv
        rcases List.mem_append.mp hv with hrep | htail
        · rcases List.mem_replicate.mp hrep with ⟨hne, rfl⟩
          exact ⟨info, List.mem_cons_self _ _, by simp [declCount, hp, hne]⟩
        · rcases (mem_specList s v rest).mp htail with ⟨i2, hmem, hd⟩
          exact ⟨i2, List.mem_cons_of_mem _ hmem, hd⟩
      · rintro ⟨i2, hmem, hd⟩
        rcases List.mem_cons.mp hmem with heq | hmem2
        · rw [Prod.mk.injEq] at heq
          rcases heq with ⟨rfl, rfl⟩
          refine List.mem_append.mpr (Or.inl ?_)
          refine List.mem_replicate.mpr ⟨?_, rfl⟩
          simpa [declCount, hp] using hd
        · exact List.mem_append.mpr (Or.inr
            ((mem_specList s v rest).mpr ⟨i2, hmem2, hd⟩))

theorem specList_subset_keys (s v : String) (c : Catalog)
    (h : v ∈ specList s c) : v ∈ c.map Prod.fst := by
  rcases (mem_specList s v c).mp h with ⟨info, hmem, _⟩
  exact List.mem_map.mpr ⟨(v, info), hmem, rfl⟩

theorem count_specList (s vid : String) (info : VendorInfo) :
    (c : Catalog) → (c.map Prod.fst).Nodup → (vid, info) ∈ c →
      (specList s c).count vid = declCount s info
  | [], _, hmem => by simp at hmem
  | (k, iv) :: rest, hnd, hmem => by
    rw [List.map_cons, List.nodup_cons] at hnd
    rcases List.mem_cons.mp hmem with heq | hmem2
    · rw [Prod.mk.injEq] at heq
      rcases heq with ⟨rfl, rfl⟩
      have hnotin : vid ∉ specList s rest := by
        intro hc
        exact hnd.1 (specList_subset_keys s vid rest hc)
      rcases hp : info.processes with _ | entries
      · rw [specList, hp, List.count_eq_zero.mpr hnotin]
        simp [declCount, hp]
      · rw [specList, hp, List.count_append, List.count_eq_zero.mpr hnotin,
          List.count_replicate]
        simp [declCount, hp]
    · have hkeys : vid ∈ rest.map Prod.fst :=
        List.mem_map.mpr ⟨(vid, info), hmem2, rfl⟩
      have hne : ¬ (vid == k) := by
        intro hb
        rw [beq_iff_eq] at hb
        rw [hb] at hkeys
        exact hnd.1 hkeys
      have ih := count_specList s vid info rest hnd.2 hmem2
      rcases hp : iv.processes with _ | entries
      · rw [specList, hp, ih]
      · have hne3 : ¬ (k = vid) := fun hb => absurd (beq_iff_eq.mpr hb.symm) hne
        rw [specList, hp, List.count_append, List.count_replicate, ih]
        simp [hne, hne3]

theorem mem_findVendorsByProcess (p v : String) :
    (c : Catalog) →
      (v ∈ findVendorsByProcess p c ↔
        ∃ info, (v, info) ∈ c ∧ procMatches p info = true)
  | [] => by simp [findVendorsByProcess]
  | (vid, info) :: rest => by
    by_cases h : procMatches p info
    · rw [findVendorsByProcess, if_pos h]
      constructor
      · intro hv
        rcases List.mem_cons.mp hv with rfl | htail
        · exact ⟨info, List.mem_cons_self _ _, h⟩
        · rcases (mem_findVendorsByProcess p v rest).mp htail with ⟨i2, hmem, hm⟩
          exact ⟨i2, List.mem_cons_of_mem _ hmem, hm⟩
      · rintro ⟨i2, hmem, hm⟩
        rcases List.mem_cons.mp hmem with heq | hmem2
        · rw [Prod.mk.injEq] at heq
          rw [heq.1]
          exact List.mem_cons_self _ _
        · exact List.mem_cons_of_mem _
            ((mem_findVendorsByProcess p v rest).mpr ⟨i2, hmem2, hm⟩)
    · rw [findVendorsByProcess, if_neg h]
      rw [mem_findVendorsByProcess p v rest]
      constructor
      · rintro ⟨i2, hmem, hm⟩
        exact ⟨i2, List.mem_cons_of_mem _ hmem, hm⟩
      · rintro ⟨i2, hmem, hm⟩
        rcases List.mem_cons.mp hmem with heq | hmem2
        · rw [Prod.mk.injEq] at heq
          rcases heq with ⟨rfl, rfl⟩
          exact absurd hm h
        · exact ⟨i2, hmem2, hm⟩

theorem findVendorsByProcess_sublist (p : String) :
    (c : Catalog) → List.Sublist (findVendorsByProcess p c) (c.map Prod.fst)
  | [] => List.Sublist.refl _
  | (vid, info) :: rest => by
    by_cases h : procMatches p info
    · rw [findVendorsByProcess, if_pos h, List.map_cons]
      exact List.Sublist.cons₂ vid (findVendorsByProcess_sublist p rest)
    · rw [findVendorsByProcess, if_neg h, List.map_cons]
      exact List.Sublist.cons vid (findVendorsByProcess_sublist p rest)

theorem hasSpec_cons_some (l0 : QueueLine) (rest : List QueueLine) (s : String)
    (h : l0.spec = some s) : hasSpec (l0 :: rest) = true := by
  simp [hasSpec, List.any_cons, h]

theorem suitableVendors_spec_eq (l0 : QueueLine) (rest : List QueueLine)
    (p s : String) (c : Catalog) (hspec : l0.spec = some s) :
    suitableVendors (l0 :: rest) p c =
      (if (specList s c).isEmpty then .ok (findVendorsByProcess p c)
       else .ok (specList s c)) := by
  simp [suitableVendors, hasSpec_cons_some l0 rest s hspec, hspec,
    findVendorsBySpec_some]

theorem suitableVendors_noSpec (ls : List QueueLine) (p : String) (c : Catalog)
    (h : hasSpec ls = false) :
    suitableVendors ls p c = .ok (findVendorsByProcess p c) := by
  simp [suitableVendors, h]

/-- C1: for a (quote, process) group whose spec cell (that of the first
line, the one the matcher reads) is set, and for which at least one vendor
declares that spec case-insensitively, suitableVendors returns exactly
the spec-search list: every declaring vendor is in it, everything in it
is a declaring vendor, and the process-name fallback is never consulted
(the returned list is the non-empty spec-basis list itself). -/
theorem C1_spec_match_wins (l0 : QueueLine) (rest : List QueueLine)
    (p s : String) (c : Catalog) (hspec : l0.spec = some s)
    (hdecl : ∃ vp ∈ c, declaresSpec s vp.2 = true) :
    suitableVendors (l0 :: rest) p c = .ok (specList s c) ∧
    (∀ vp ∈ c, declaresSpec s vp.2 = true → vp.1 ∈ specList s c) ∧
    (∀ v ∈ specList s c, ∃ info, (v, info) ∈ c ∧ declaresSpec s info = true) := by
  have hne : specList s c ≠ [] := by
    rcases hdecl with ⟨⟨v, info⟩, hmem, hd⟩
    have hv : v ∈ specList s c := (mem_specList s v c).mpr
      ⟨info, hmem, (declaresSpec_iff_declCount s info).mp hd⟩
    intro h0
    rw [h0] at hv
    exact absurd hv (List.not_mem_nil v)
  refine ⟨?_, ?_, ?_⟩
  · rw [suitableVendors_spec_eq l0 rest p s c hspec]
    have hie : (specList s c).isEmpty = false := by
      rcases h2 : specList s c with _ | _
      · exact absurd h2 hne
      · rfl
    rw [hie]
    simp
  · rintro ⟨v, info⟩ hmem hd
    exact (mem_specList s v c).mpr
      ⟨info, hmem, (declaresSpec_iff_declCount s info).mp hd⟩
  · intro v hv
    rcases (mem_specList s v c).mp hv with ⟨info, hmem, hd⟩
    exact ⟨info, hmem, (declaresSpec_iff_declCount s info).mpr hd⟩

/-- C1 witness: a catalog where V1 declares MIL-A-8625 and V2 only lists
the Anodize process; the group asks for mil-a-8625, so V1 is matched on
SPEC basis and the process fallback is not consulted. -/
theorem C1_witness :
    suitableVendors [wLine] "Anodize" wCat = .ok (specList "mil-a-8625" wCat) ∧
    (∀ vp ∈ wCat, declaresSpec "mil-a-8625" vp.2 = true →
      vp.1 ∈ specList "mil-a-8625" wCat) ∧
    (∀ v ∈ specList "mil-a-8625" wCat,
      ∃ info, (v, info) ∈ wCat ∧ declaresSpec "mil-a-8625" info = true) :=
  C1_spec_match_wins wLine [] "Anodize" "mil-a-8625" wCat rfl
    ⟨("V1", v1info), by decide, by decide⟩

/-- C2: when the group has no spec, or the spec search found nobody,
suitableVendors is exactly the process-name search: every vendor whose
capability list matches the process name case-insensitively (as a plain
string entry or through the name key of a dict entry) is in it, and everything
in it is such a vendor; when that search is also empty the result is the
empty list, with no default vendor. -/
theorem C2_process_fallback (ls : List QueueLine) (p : String) (c : Catalog)
    (hfall : hasSpec ls = false ∨
      ∃ l0 rest s, ls = l0 :: rest ∧ l0.spec = some s ∧ specList s c = []) :
    suitableVendors ls p c = .ok (findVendorsByProcess p c) ∧
    (∀ vp ∈ c, procMatches p vp.2 = true → vp.1 ∈ findVendorsByProcess p c) ∧
    (∀ v ∈ findVendorsByProcess p c,
      ∃ info, (v, info) ∈ c ∧ procMatches p info = true) := by
  refine ⟨?_, ?_, ?_⟩
  · rcases hfall with h | ⟨l0, rest, s, rfl, hspec, hempty⟩
    · exact suitableVendors_noSpec ls p c h
    · rw [suitableVendors_spec_eq l0 rest p s c hspec, hempty]
      simp
  · rintro ⟨v, info⟩ hmem hm
    exact (mem_findVendorsByProcess p v c).mpr ⟨info, hmem, hm⟩
  · intro v hv
    exact (mem_findVendorsByProcess p v c).mp hv

/-- C2 witness: the group asks for spec ZZZ which nobody declares, so the
matcher falls back to process-name matching on Anodize. -/
theorem C2_witness :
    suitableVendors [wLineZ] "Anodize" wCat =
      .ok (findVendorsByProcess "Anodize" wCat) ∧
    (∀ vp ∈ wCat, procMatches "Anodize" vp.2 = true →
      vp.1 ∈ findVendorsByProcess "Anodize" wCat) ∧
    (∀ v ∈ findVendorsByProcess "Anodize" wCat,
      ∃ info, (v, info) ∈ wCat ∧ procMatches "Anodize" info = true) :=
  C2_process_fallback [wLineZ] "Anodize" wCat
    (Or.inr ⟨wLineZ, [], "ZZZ", rfl, rfl, by decide⟩)

/-- C9 counterexample: vendor V declares spec S1 under two process
entries; the spec search appends it twice, and the fan-out then makes two
sink calls to the same vendor for the one (quote, process) pair. -/
theorem C9_counterexample :
    suitableVendors [c9line] "Anodize" c9catalog = .ok ["V", "V"] ∧
    (processPair trivEnv trivSink c9catalog trivCfg "Q1" "Anodize" [c9line]).map
      (fun x => x.1.map (fun d => d.recipient)) = .ok ["v@x.com", "v@x.com"] :=
  ⟨rfl, rfl⟩

/-- C9 amended: in process-name matching each vendor id appears at most
once (for a catalog with distinct keys the result has no duplicates); in
spec matching a vendor id appears once per process entry declaring the
matching spec, so a vendor declaring it under several processes appears
several times and receives one draft per occurrence. -/
theorem C9_no_dup_amended (p s vid : String) (info : VendorInfo) (c : Catalog)
    (hnd : (c.map Prod.fst).Nodup) (hmem : (vid, info) ∈ c) :
    (findVendorsByProcess p c).Nodup ∧
    (specList s c).count vid = declCount s info :=
  ⟨List.Nodup.sublist (findVendorsByProcess_sublist p c) hnd,
    count_specList s vid info c hnd hmem⟩

/-- C9 witness: on the double-declaring catalog, process matching lists V
once while spec matching counts it once per declaring entry (twice). -/
theorem C9_witness :
    (findVendorsByProcess "Anodize" c9catalog).Nodup ∧
    (specList "S1" c9catalog).count "V" = declCount "S1" c9info :=
  C9_no_dup_amended "Anodize" "S1" "V" c9info c9catalog (by decide) (by decide)

/-- C10: the group (Q1, Anodize) has spec data (a later line carries
MIL-A-8625), so has_spec holds, but the matcher reads the NaN cell of
the FIRST line and calls .lower() on it while scanning the numbered spec
entries: the spec-based matching step raises AttributeError instead of
completing, and the exception aborts the whole process_queue run. -/
theorem C10_spec_crash :
    hasSpec [c10lineA, c10lineB] = true ∧
    suitableVendors [c10lineA, c10lineB] "Anodize" c10catalog =
      .error .attributeError ∧
    process_queue trivEnv trivSink trivCfg [c10lineA, c10lineB] c10catalog =
      .error .attributeError :=
  ⟨rfl, rfl, rfl⟩

/-- C3: for a (quote, process) pair for which the matcher found no
vendor, the orchestrator emits exactly one audit record, with vendor id
NONE and status skipped_no_vendor_ followed by the process name, makes no
mail-sink call, contributes no success, and substitutes no default
vendor. -/
theorem C3_unmatched_skip (env : ComposeEnv) (sink : SinkCall → Bool)
    (vi : Catalog) (cfg : Config) (q p : String) (items : List QueueLine)
    (h : suitableVendors (items.filter (fun l => l.process == p)) p vi = .ok []) :
    processPair env sink vi cfg q p items =
      .ok ([], [⟨q, "NONE", "skipped_no_vendor_" ++ p⟩], 0) := by
  simp [processPair, h]

/-- C3 witness: no vendor offers Plating, so the pair (Q2, Plating) is
audited as skipped and no draft is attempted. -/
theorem C3_witness :
    processPair trivEnv trivSink c3catalog trivCfg "Q2" "Plating" [c3line] =
      .ok ([], [⟨"Q2", "NONE", "skipped_no_vendor_" ++ "Plating"⟩], 0) :=
  C3_unmatched_skip trivEnv trivSink c3catalog trivCfg "Q2" "Plating" [c3line] rfl

/-- C8: when the mail sink reports failure for one vendor of a
(quote, process) pair, whether from missing attachments or a caught hard
failure, the audit record is still written with the distinct status
draft_saved_with_issues_ followed by the process name (different from the
success status), the success counter is not incremented, and the fan-out
continues with the remaining vendors. -/
theorem C8_sink_failure_continues (env : ComposeEnv) (sink : SinkCall → Bool)
    (vi : Catalog) (cfg : Config) (q p : String) (pitems : List QueueLine)
    (vid : String) (info : VendorInfo) (subj body : String) (rest : List String)
    (d2 : List SinkCall) (a2 : List AuditRecord) (s2 : Nat)
    (hl : lookupVendor vid vi = some info)
    (hc : create_email_body env info pitems (some p) (use_templateOf env cfg)
      cfg.template_path cfg.sample_table_path cfg.signature true
      (some (resolveAttachments env.fs pitems)) = some (subj, body))
    (hfail : sink ⟨info.email, subj, body, resolveAttachments env.fs pitems⟩ = false)
    (hrest : processVendorList env sink vi cfg q p pitems rest = .ok (d2, a2, s2)) :
    processVendorList env sink vi cfg q p pitems (vid :: rest) =
      .ok (⟨info.email, subj, body, resolveAttachments env.fs pitems⟩ :: d2,
        ⟨q, vid, "draft_saved_with_issues_" ++ p⟩ :: a2, s2) ∧
    "draft_saved_with_issues_" ++ p ≠ "draft_saved_" ++ p := by
  constructor
  · rw [processVendorList]
    simp only [processVendor, hl, hc, hfail, hrest]
    simp
  · intro hEq
    have hlen := congrArg String.length hEq
    rw [String.length_append, String.length_append] at hlen
    have h1 : ("draft_saved_with_issues_" : String).length = 24 := rfl
    have h2 : ("draft_saved_" : String).length = 12 := rfl
    rw [h1, h2] at hlen
    omega

/-- C8 witness: a sink that always fails, one vendor V2 and no further
vendors: the failure audit is written, successes stay 0. -/
theorem C8_witness :
    processVendorList trivEnv falseSink wCat trivCfg "Q1" "Anodize" [wLineZ] ["V2"] =
      .ok ([⟨v2info.email, c8subj, c8body, resolveAttachments trivEnv.fs [wLineZ]⟩],
        [⟨"Q1", "V2", "draft_saved_with_issues_" ++ "Anodize"⟩], 0) ∧
    "draft_saved_with_issues_" ++ "Anodize" ≠ "draft_saved_" ++ "Anodize" :=
  C8_sink_failure_continues trivEnv falseSink wCat trivCfg "Q1" "Anodize" [wLineZ]
    "V2" v2info c8subj c8body [] [] [] 0 rfl rfl rfl rfl

/-- C6 counterexample: two queue lines of the same (quote, process) group
both resolve to the regular file F; the composed message handed to the
mail sink carries F twice, so duplicate resolved paths are NOT removed. -/
theorem C6_counterexample :
    (process_queue c6env trivSink trivCfg [c6line, c6line] c3catalog).map
      (fun r => r.drafts.map (fun d => d.attachments)) = .ok [["F", "F"]] :=
  rfl

/-- C6 amended: no deduplication is performed; the attachment list handed
to the composer and the mail sink for a (quote, process, vendor) message
is exactly the concatenation of the per-line resolutions in queue order,
so a path resolved by several lines appears several times. -/
theorem C6_no_dedup_amended (env : ComposeEnv) (sink : SinkCall → Bool)
    (vi : Catalog) (cfg : Config) (q p : String) (pitems : List QueueLine)
    (vid : String) (info : VendorInfo) (subj body : String)
    (hl : lookupVendor vid vi = some info)
    (hc : create_email_body env info pitems (some p) (use_templateOf env cfg)
      cfg.template_path cfg.sample_table_path cfg.signature true
      (some (resolveAttachments env.fs pitems)) = some (subj, body)) :
    (∀ fs l ls, resolveAttachments fs (l :: ls) =
      resolveLine fs l ++ resolveAttachments fs ls) ∧
    processVendor env sink vi cfg q p pitems vid =
      .ok ([⟨info.email, subj, body, resolveAttachments env.fs pitems⟩],
        [⟨q, vid,
          if sink ⟨info.email, subj, body, resolveAttachments env.fs pitems⟩
          then "draft_saved_" ++ p else "draft_saved_with_issues_" ++ p⟩],
        if sink ⟨info.email, subj, body, resolveAttachments env.fs pitems⟩
        then 1 else 0) := by
  refine ⟨fun _ _ _ => rfl, ?_⟩
  simp only [processVendor, hl, hc]
  by_cases hs : sink ⟨info.email, subj, body, resolveAttachments env.fs pitems⟩
  · simp [hs]
  · simp [hs]

/-- C6 witness: the amended statement applied to vendor V2 and the group
holding the single line wLineZ. -/
theorem C6_witness :
    (∀ fs l ls, resolveAttachments fs (l :: ls) =
      resolveLine fs l ++ resolveAttachments fs ls) ∧
    processVendor trivEnv trivSink wCat trivCfg "Q1" "Anodize" [wLineZ] "V2" =
      .ok ([⟨v2info.email, c8subj, c8body, resolveAttachments trivEnv.fs [wLineZ]⟩],
        [⟨"Q1", "V2",
          if trivSink ⟨v2info.email, c8subj, c8body, resolveAttachments trivEnv.fs [wLineZ]⟩
          then "draft_saved_" ++ "Anodize" else "draft_saved_with_issues_" ++ "Anodize"⟩],
        if trivSink ⟨v2info.email, c8subj, c8body, resolveAttachments trivEnv.fs [wLineZ]⟩
        then 1 else 0) :=
  C6_no_dedup_amended trivEnv trivSink wCat trivCfg "Q1" "Anodize" [wLineZ]
    "V2" v2info c8subj c8body rfl rfl

/-- C5: per queue line, attachment resolution behaves as specified: an
existing regular file (not a directory) is the sole contribution; an
existing directory is walked and, provided the walk yields regular files,
the full path of a walked file is included iff its name contains the stripped
part number as a substring and its lowercased extension is not one of
.xlsx, .xls, .docx, .doc; a missing path contributes nothing (resolveLine
is total, so the condition is non-fatal). -/
theorem C5_attachment_resolution (fs : FS) (l : QueueLine) (fp : String)
    (hfp : l.file_path = some fp) :
    (fs.pathExists (trimStr fp) = true → fs.isDir (trimStr fp) = false →
      fs.isFile (trimStr fp) = true → resolveLine fs l = [trimStr fp]) ∧
    (fs.pathExists (trimStr fp) = true → fs.isDir (trimStr fp) = true →
      (∀ e ∈ fs.walk (trimStr fp), fs.isFile e.2 = true) →
      ∀ pth : String, (pth ∈ resolveLine fs l ↔
        ∃ nm, (nm, pth) ∈ fs.walk (trimStr fp) ∧
          containsSub nm (trimStr l.part_number) = true ∧
          ignore_extensions.contains (lowerStr (splitExt pth).2) = false)) ∧
    (fs.pathExists (trimStr fp) = false → resolveLine fs l = []) := by
  refine ⟨?_, ?_, ?_⟩
  · intro hex hdir hfile
    simp [resolveLine, hfp, hex, hdir, hfile]
  · intro hex hdir hwalk pth
    simp only [resolveLine, hfp, hex, hdir, if_true]
    constructor
    · intro hmem
      rcases List.mem_map.mp hmem with ⟨⟨nm, pth2⟩, hein, heq⟩
      cases heq
      rcases List.mem_filter.mp hein with ⟨hw, hcond⟩
      simp only [Bool.and_eq_true, Bool.not_eq_true'] at hcond
      exact ⟨nm, hw, hcond.1.1, hcond.2⟩
    · rintro ⟨nm, hw, hcontain, hext⟩
      apply List.mem_map.mpr
      refine ⟨(nm, pth), List.mem_filter.mpr ⟨hw, ?_⟩, rfl⟩
      have hf := hwalk (nm, pth) hw
      simp only [Bool.and_eq_true, Bool.not_eq_true']
      exact ⟨⟨hcontain, hf⟩, hext⟩
  · intro hex
    simp [resolveLine, hfp, hex]

/-- C5 witness: the three behaviours at concrete filesystems: D as a
regular file is the sole attachment; in the directory walk the matching
pdf satisfies the characterisation; a missing path contributes nothing. -/
theorem C5_witness :
    resolveLine c5file_fs c5line = [trimStr "D"] ∧
    ("D\\PN123_drawing.pdf" ∈ resolveLine c5dir_fs c5line ↔
      ∃ nm, (nm, "D\\PN123_drawing.pdf") ∈ c5dir_fs.walk (trimStr "D") ∧
        containsSub nm (trimStr c5line.part_number) = true ∧
        ignore_extensions.contains
          (lowerStr (splitExt "D\\PN123_drawing.pdf").2) = false) ∧
    resolveLine noFS c5line = [] :=
  ⟨(C5_attachment_resolution c5file_fs c5line "D" rfl).1 rfl rfl rfl,
   (C5_attachment_resolution c5dir_fs c5line "D" rfl).2.1 rfl rfl
     (by decide) "D\\PN123_drawing.pdf",
   (C5_attachment_resolution noFS c5line "D" rfl).2.2 rfl⟩

/-- C7: the composer is deterministic and mutation-free.  Its impure
collaborators, the current date behind the due-date computation, the
filesystem checks, the template engine and the sample-table header, are
explicit components of the ComposeEnv argument; with them fixed,
create_email_body is a pure function, so two calls with componentwise
equal inputs return byte-identical (subject, body) pairs, and the vendor
and catalog values, passed immutably, cannot be modified by a call. -/
theorem C7_composer_deterministic (env1 env2 : ComposeEnv)
    (v1 v2 : VendorInfo) (it1 it2 : List QueueLine) (p1 p2 : Option String)
    (u1 u2 : Bool) (tp1 tp2 sp1 sp2 sg1 sg2 : Option String) (h1 h2 : Bool)
    (a1 a2 : Option (List String))
    (henv : env1 = env2) (hv : v1 = v2) (hit : it1 = it2) (hp : p1 = p2)
    (hu : u1 = u2) (htp : tp1 = tp2) (hsp : sp1 = sp2) (hsg : sg1 = sg2)
    (hh : h1 = h2) (ha : a1 = a2) :
    create_email_body env1 v1 it1 p1 u1 tp1 sp1 sg1 h1 a1 =
      create_email_body env2 v2 it2 p2 u2 tp2 sp2 sg2 h2 a2 := by
  subst henv hv hit hp hu htp hsp hsg hh ha
  rfl

/-- C7 witness: two calls on identical concrete inputs agree. -/
theorem C7_witness :
    create_email_body trivEnv v2info [wLineZ] (some "Anodize") false none none
        none true (some []) =
      create_email_body trivEnv v2info [wLineZ] (some "Anodize") false none none
        none true (some []) :=
  C7_composer_deterministic trivEnv trivEnv v2info v2info [wLineZ] [wLineZ]
    (some "Anodize") (some "Anodize") false false none none none none none none
    true true (some []) (some []) rfl rfl rfl rfl rfl rfl rfl rfl rfl rfl

theorem mem_firstUniquesAux [DecidableEq α] (x : α) :
    (l : List α) → (seen : List α) →
      (x ∈ firstUniquesAux l seen ↔ x ∈ l ∧ x ∉ seen)
  | [], seen => by simp [firstUniquesAux]
  | a :: rest, seen => by
    by_cases h : a ∈ seen
    · rw [firstUniquesAux, if_pos h, mem_firstUniquesAux x rest seen]
      constructor
      · rintro ⟨hx, hns⟩
        exact ⟨List.mem_cons_of_mem a hx, hns⟩
      · rintro ⟨hx, hns⟩
        rcases List.mem_cons.mp hx with rfl | hx2
        · exact absurd h hns
        · exact ⟨hx2, hns⟩
    · rw [firstUniquesAux, if_neg h]
      constructor
      · intro hx
        rcases List.mem_cons.mp hx with rfl | hx2
        · exact ⟨List.mem_cons_self x rest, h⟩
        · rcases (mem_firstUniquesAux x rest (a :: seen)).mp hx2 with ⟨hr, hns⟩
          exact ⟨List.mem_cons_of_mem a hr,
            fun hs => hns (List.mem_cons_of_mem a hs)⟩
      · rintro ⟨hx, hns⟩
        rcases List.mem_cons.mp hx with rfl | hx2
        · exact List.mem_cons_self x _
        · by_cases hxa : x = a
          · subst hxa
            exact List.mem_cons_self x _
          · refine List.mem_cons_of_mem a
              ((mem_firstUniquesAux x rest (a :: seen)).mpr ⟨hx2, ?_⟩)
            intro hs
            rcases List.mem_cons.mp hs with h1 | h2
            · exact hxa h1
            · exact hns h2

theorem nodup_firstUniquesAux [DecidableEq α] :
    (l : List α) → (seen : List α) → (firstUniquesAux l seen).Nodup
  | [], _ => List.nodup_nil
  | a :: rest, seen => by
    by_cases h : a ∈ seen
    · rw [firstUniquesAux, if_pos h]
      exact nodup_firstUniquesAux rest seen
    · rw [firstUniquesAux, if_neg h]
      refine List.nodup_cons.mpr ⟨?_, nodup_firstUniquesAux rest (a :: seen)⟩
      intro hmem
      rcases (mem_firstUniquesAux a rest (a :: seen)).mp hmem with ⟨_, hns⟩
      exact hns (List.mem_cons_self a seen)

theorem mem_firstUniques [DecidableEq α] (x : α) (l : List α) :
    x ∈ firstUniques l ↔ x ∈ l := by
  rw [firstUniques, mem_firstUniquesAux]
  simp

theorem nodup_firstUniques [DecidableEq α] (l : List α) :
    (firstUniques l).Nodup :=
  nodup_firstUniquesAux l []

theorem toFinset_firstUniques [DecidableEq α] (l : List α) :
    (firstUniques l).toFinset = l.toFinset := by
  ext x
  simp [List.mem_toFinset, mem_firstUniques]

theorem length_firstUniques [DecidableEq α] (l : List α) :
    (firstUniques l).length = l.toFinset.card := by
  rw [← toFinset_firstUniques, List.toFinset_card_of_nodup (nodup_firstUniques l)]

theorem processPairs_total (env : ComposeEnv) (sink : SinkCall → Bool)
    (vi : Catalog) (cfg : Config) (qid : String) (items : List QueueLine) :
    (ps : List String) → (d : List SinkCall) → (a : List AuditRecord) →
      (s t : Nat) →
      processPairs env sink vi cfg qid items ps = .ok (d, a, s, t) →
      t = ps.length
  | [], d, a, s, t, h => by
    rw [processPairs] at h
    cases h
    rfl
  | p :: rest, d, a, s, t, h => by
    rw [processPairs] at h
    rcases h1 : processPair env sink vi cfg qid p items with e | ⟨d1, a1, s1⟩
    · rw [h1] at h
      cases h
    · rw [h1] at h
      rcases h2 : processPairs env sink vi cfg qid items rest with e | ⟨d2, a2, s2, t2⟩
      · rw [h2] at h
        cases h
      · rw [h2] at h
        cases h
        have ih := processPairs_total env sink vi cfg qid items rest d2 a2 s2 t2 h2
        rw [List.length_cons]
        omega

theorem processQuotes_total (env : ComposeEnv) (sink : SinkCall → Bool)
    (queue : List QueueLine) (vi : Catalog) (cfg : Config)
    (hvi : vi.isEmpty = false) :
    (qs : List String) → (d : List SinkCall) → (a : List AuditRecord) →
      (s t : Nat) →
      processQuotes env sink queue vi cfg qs = .ok (d, a, s, t) →
      t = (qs.map (fun q =>
        (firstUniques ((queue.filter (fun l => l.quote_id == q)).map
          (fun l => l.process))).length)).sum
  | [], d, a, s, t, h => by
    rw [processQuotes] at h
    cases h
    rfl
  | q :: restQ, d, a, s, t, h => by
    rw [processQuotes, hvi] at h
    simp only [Bool.false_eq_true, if_false] at h
    rcases h1 : processPairs env sink vi cfg q
        (queue.filter (fun l => l.quote_id == q))
        (firstUniques ((queue.filter (fun l => l.quote_id == q)).map
          (fun l => l.process))) with e | ⟨d1, a1, s1, t1⟩
    · rw [h1] at h
      cases h
    · rw [h1] at h
      rcases h2 : processQuotes env sink queue vi cfg restQ with e | ⟨d2, a2, s2, t2⟩
      · rw [h2] at h
        cases h
      · rw [h2] at h
        cases h
        have ih := processQuotes_total env sink queue vi cfg hvi restQ d2 a2 s2 t2 h2
        have ht1 := processPairs_total env sink vi cfg q
          (queue.filter (fun l => l.quote_id == q)) _ d1 a1 s1 t1 h1
        rw [List.map_cons, List.sum_cons]
        omega

theorem distinct_pairs_count (queue : List QueueLine) :
    ((firstUniques (queue.map (fun l => l.quote_id))).map (fun q =>
      (firstUniques ((queue.filter (fun l => l.quote_id == q)).map
        (fun l => l.process))).length)).sum =
    (queue.map (fun l => (l.quote_id, l.process))).toFinset.card := by
  classical
  set pairs := (queue.map (fun l => (l.quote_id, l.process))).toFinset with hpairs
  have himg : pairs.image Prod.fst = (queue.map (fun l => l.quote_id)).toFinset := by
    ext x
    simp only [hpairs, Finset.mem_image, List.mem_toFinset, List.mem_map]
    constructor
    · rintro ⟨⟨a, b⟩, ⟨l, hl, heq⟩, rfl⟩
      cases heq
      exact ⟨l, hl, rfl⟩
    · rintro ⟨l, hl, rfl⟩
      exact ⟨(l.quote_id, l.process), ⟨l, hl, rfl⟩, rfl⟩
  have hfiber : ∀ q : String,
      (pairs.filter (fun x => x.1 = q)).card =
      (((queue.filter (fun l => l.quote_id == q)).map
        (fun l => l.process)).toFinset).card := by
    intro q
    have himg2 : pairs.filter (fun x => x.1 = q) =
        (((queue.filter (fun l => l.quote_id == q)).map
          (fun l => l.process)).toFinset).image (fun p => (q, p)) := by
      ext ⟨x1, x2⟩
      simp only [hpairs, Finset.mem_filter, Finset.mem_image, List.mem_toFinset,
        List.mem_map, List.mem_filter, beq_iff_eq, Prod.mk.injEq]
      constructor
      · rintro ⟨⟨l, hl, heq1, heq2⟩, rfl⟩
        exact ⟨l.process, ⟨l, ⟨hl, heq1⟩, rfl⟩, rfl, heq2⟩
      · rintro ⟨p2, ⟨l, ⟨hl, hq⟩, rfl⟩, rfl, rfl⟩
        exact ⟨⟨l, hl, hq, rfl⟩, rfl⟩
    rw [himg2]
    exact Finset.card_image_of_injective _ (fun a b hab => by simpa using hab)
  have hg : ∀ q : String,
      (firstUniques ((queue.filter (fun l => l.quote_id == q)).map
        (fun l => l.process))).length =
      (((queue.filter (fun l => l.quote_id == q)).map
        (fun l => l.process)).toFinset).card :=
    fun q => length_firstUniques _
  calc ((firstUniques (queue.map (fun l => l.quote_id))).map (fun q =>
        (firstUniques ((queue.filter (fun l => l.quote_id == q)).map
          (fun l => l.process))).length)).sum
      = ((firstUniques (queue.map (fun l => l.quote_id))).map (fun q =>
          (((queue.filter (fun l => l.quote_id == q)).map
            (fun l => l.process)).toFinset).card)).sum := by
        simp only [hg]
    _ = (firstUniques (queue.map (fun l => l.quote_id))).toFinset.sum (fun q =>
          (((queue.filter (fun l => l.quote_id == q)).map
            (fun l => l.process)).toFinset).card) :=
        (List.sum_toFinset _ (nodup_firstUniques _)).symm
    _ = (queue.map (fun l => l.quote_id)).toFinset.sum (fun q =>
          (((queue.filter (fun l => l.quote_id == q)).map
            (fun l => l.process)).toFinset).card) := by
        rw [toFinset_firstUniques]
    _ = (queue.map (fun l => l.quote_id)).toFinset.sum (fun q =>
          (pairs.filter (fun x => x.1 = q)).card) := by
        refine Finset.sum_congr rfl ?_
        intro q _
        exact (hfiber q).symm
    _ = (pairs.image Prod.fst).sum (fun q =>
          (pairs.filter (fun x => x.1 = q)).card) := by
        rw [himg]
    _ = pairs.card := (Finset.card_eq_sum_card_image Prod.fst pairs).symm

/-- C4 counterexample: with an empty vendor catalog the quote is skipped
before the per-process counting, so totalAttempted is 0 although the
queue holds one distinct (quote_id, process) pair. -/
theorem C4_counterexample :
    process_queue trivEnv trivSink trivCfg [c3line] [] = .ok ⟨[], [], 0, 0⟩ ∧
    ([c3line].map (fun l => (l.quote_id, l.process))).toFinset.card = 1 :=
  ⟨rfl, by decide⟩

/-- C4 amended: provided the vendor catalog is non-empty (an empty
catalog skips every quote before counting) and the run completes, the
returned totalAttempted equals the number of distinct (quote_id, process)
pairs in the queue, independent of vendor fan-out. -/
theorem C4_total_attempted (env : ComposeEnv) (sink : SinkCall → Bool)
    (cfg : Config) (queue : List QueueLine) (vi : Catalog) (r : RunResult)
    (hvi : vi ≠ []) (h : process_queue env sink cfg queue vi = .ok r) :
    r.total_quotes =
      (queue.map (fun l => (l.quote_id, l.process))).toFinset.card := by
  have hvi2 : vi.isEmpty = false := by
    rcases vi with _ | _
    · exact absurd rfl hvi
    · rfl
  rw [process_queue] at h
  rcases hq : processQuotes env sink queue vi cfg
      (firstUniques (queue.map (fun l => l.quote_id))) with e | ⟨d, a, s, t⟩
  · rw [hq] at h
    cases h
  · rw [hq] at h
    cases h
    have ht := processQuotes_total env sink queue vi cfg hvi2
      (firstUniques (queue.map (fun l => l.quote_id))) d a s t hq
    rw [ht]
    exact distinct_pairs_count queue

/-- C4 witness: one quote, one process, non-empty catalog without a
matching vendor: the run completes with totalAttempted 1, the number of
distinct pairs. -/
theorem C4_witness :
    (⟨[], [⟨"Q2", "NONE", "skipped_no_vendor_Plating"⟩], 0, 1⟩
        : RunResult).total_quotes =
      ([c3line].map (fun l => (l.quote_id, l.process))).toFinset.card :=
  C4_total_attempted trivEnv trivSink trivCfg [c3line] c10catalog
    ⟨[], [⟨"Q2", "NONE", "skipped_no_vendor_Plating"⟩], 0, 1⟩
    (by decide) rfl
